import Mathlib

/-!
Verification of the lando_gui dispatch/outcome core.

The Rust source spawns external processes on worker threads and reports
results to a single-threaded egui consumer through an mpsc channel.  We
embed each worker function (src/lando.rs) as a pure function from an
explicit description of the external world (whether the process spawned,
the chunks its streams delivered, its exit status, its stdout text) to
the list of messages that worker sends on the channel, in that worker's
own send order.  The consumer step (src/app.rs, LandoGui::update) is
embedded as a state-transition function on the UI state.  JSON decoding
of the listing and introspection output (serde derive on src/models.rs)
is embedded over a JSON value type; parsing of the raw byte text is the
serde_json library's job and is represented by an Except value in the
environment.  Duplicate JSON object keys are not modelled (serde_json
rejects them); field lookup takes the first occurrence.
-/

set_option linter.unusedVariables false

namespace LandoGui

/-- src/models.rs, struct LandoApp.  Fields name, location, urls carry a
serde default; running does not. -/
structure LandoApp where
  name : String
  location : String
  urls : List String
  running : Bool
deriving DecidableEq, Repr

/-- src/models.rs, struct ServiceConnectionInfo. -/
structure ServiceConnectionInfo where
  host : String
  port : String
deriving DecidableEq, Repr

/-- src/models.rs, struct ServiceCreds (all fields Option, hence optional
to serde). -/
structure ServiceCreds where
  user : Option String
  password : Option String
  database : Option String
deriving DecidableEq, Repr

/-- src/models.rs, struct LandoService. -/
structure LandoService where
  service : String
  type : String
  urls : List String
  version : String
  internal_connection : Option ServiceConnectionInfo
  external_connection : Option ServiceConnectionInfo
  creds : Option ServiceCreds
deriving DecidableEq, Repr

/-- A JSON value, the output of serde_json parsing. -/
inductive Json where
  | null
  | bool (b : Bool)
  | num (n : Int)
  | str (s : String)
  | arr (xs : List Json)
  | obj (fields : List (String × Json))

/-- src/lando.rs, enum LandoCommandOutcome: the messages worker threads
send to the UI.  Byte chunks are lists of naturals below 256. -/
inductive LandoCommandOutcome where
  | List (apps : List LandoApp)
  | Projects (paths : List (List String))
  | Info (services : List LandoService)
  | DbQueryResult (s : String)
  | Error (msg : String)
  | CommandSuccess (msg : String)
  | FinishedLoading
  | LogOutput (bytes : List Nat)
deriving DecidableEq, Repr

/-- Look a key up in a JSON object's field list (first occurrence). -/
def getField (fields : List (String × Json)) (k : String) : Option Json :=
  (fields.find? (fun p => p.1 = k)).map (fun p => p.2)

/-- serde: decode a JSON string. -/
def decodeString : Json → Except String String
  | .str s => .ok s
  | _ => .error "invalid type: expected a string"

/-- serde: decode each element of a JSON sequence, stopping at the first
failure. -/
def decodeStringItems : List Json → Except String (List String)
  | [] => .ok []
  | j :: rest =>
    match decodeString j with
    | .error e => .error e
    | .ok s =>
      match decodeStringItems rest with
      | .error e => .error e
      | .ok ss => .ok (s :: ss)

/-- serde: decode a JSON array of strings. -/
def decodeStringList : Json → Except String (List String)
  | .arr xs => decodeStringItems xs
  | _ => .error "invalid type: expected a sequence"

/-- serde: decode a JSON boolean. -/
def decodeBool : Json → Except String Bool
  | .bool b => .ok b
  | _ => .error "invalid type: expected a boolean"

/-- serde: a string field with a default — a missing key yields the empty
string, a present key must hold a string. -/
def decodeFieldString (fields : List (String × Json)) (k : String) :
    Except String String :=
  match getField fields k with
  | none => .ok ""
  | some v => decodeString v

/-- serde: a string-list field with a default. -/
def decodeFieldStringList (fields : List (String × Json)) (k : String) :
    Except String (List String) :=
  match getField fields k with
  | none => .ok []
  | some v => decodeStringList v

/-- serde: a required boolean field — a missing key is an error. -/
def decodeFieldBoolReq (fields : List (String × Json)) (k : String) :
    Except String Bool :=
  match getField fields k with
  | none => .error ("missing field " ++ k)
  | some v => decodeBool v

/-- serde: a required string field. -/
def decodeFieldStringReq (fields : List (String × Json)) (k : String) :
    Except String String :=
  match getField fields k with
  | none => .error ("missing field " ++ k)
  | some v => decodeString v

/-- Decode one LandoApp object per the serde derive on src/models.rs:
name, location, urls default when missing; running is required. -/
def decodeLandoApp (j : Json) : Except String LandoApp :=
  match j with
  | .obj fields =>
    match decodeFieldString fields "name" with
    | .error e => .error e
    | .ok name =>
      match decodeFieldString fields "location" with
      | .error e => .error e
      | .ok location =>
        match decodeFieldStringList fields "urls" with
        | .error e => .error e
        | .ok urls =>
          match decodeFieldBoolReq fields "running" with
          | .error e => .error e
          | .ok running => .ok ⟨name, location, urls, running⟩
  | _ => .error "invalid type: expected an object"

/-- serde: decode each element of a sequence of apps. -/
def decodeAppItems : List Json → Except String (List LandoApp)
  | [] => .ok []
  | j :: rest =>
    match decodeLandoApp j with
    | .error e => .error e
    | .ok a =>
      match decodeAppItems rest with
      | .error e => .error e
      | .ok as => .ok (a :: as)

/-- Decode the stdout of the listing command as Vec of LandoApp. -/
def decodeApps (j : Json) : Except String (List LandoApp) :=
  match j with
  | .arr xs => decodeAppItems xs
  | _ => .error "invalid type: expected a sequence"

/-- serde: decode Option of String (used for ServiceCreds fields). -/
def decodeOptString : Json → Except String (Option String)
  | .null => .ok none
  | .str s => .ok (some s)
  | _ => .error "invalid type: expected a string or null"

/-- serde: an Option of String field; missing or null yields none. -/
def decodeFieldOptString (fields : List (String × Json)) (k : String) :
    Except String (Option String) :=
  match getField fields k with
  | none => .ok none
  | some v => decodeOptString v

/-- Decode one ServiceConnectionInfo object (host and port required). -/
def decodeConnInfo (j : Json) : Except String ServiceConnectionInfo :=
  match j with
  | .obj fields =>
    match decodeFieldStringReq fields "host" with
    | .error e => .error e
    | .ok host =>
      match decodeFieldStringReq fields "port" with
      | .error e => .error e
      | .ok port => .ok ⟨host, port⟩
  | _ => .error "invalid type: expected an object"

/-- serde: an Option of ServiceConnectionInfo field with a default;
missing or null yields none. -/
def decodeFieldOptConn (fields : List (String × Json)) (k : String) :
    Except String (Option ServiceConnectionInfo) :=
  match getField fields k with
  | none => .ok none
  | some .null => .ok none
  | some v =>
    match decodeConnInfo v with
    | .error e => .error e
    | .ok c => .ok (some c)

/-- Decode one ServiceCreds object. -/
def decodeCreds (j : Json) : Except String ServiceCreds :=
  match j with
  | .obj fields =>
    match decodeFieldOptString fields "user" with
    | .error e => .error e
    | .ok user =>
      match decodeFieldOptString fields "password" with
      | .error e => .error e
      | .ok password =>
        match decodeFieldOptString fields "database" with
        | .error e => .error e
        | .ok database => .ok ⟨user, password, database⟩
  | _ => .error "invalid type: expected an object"

/-- serde: an Option of ServiceCreds field with a default. -/
def decodeFieldOptCreds (fields : List (String × Json)) (k : String) :
    Except String (Option ServiceCreds) :=
  match getField fields k with
  | none => .ok none
  | some .null => .ok none
  | some v =>
    match decodeCreds v with
    | .error e => .error e
    | .ok c => .ok (some c)

/-- Decode one LandoService object per the serde derive on
src/models.rs: service and type required, the rest defaulted. -/
def decodeLandoService (j : Json) : Except String LandoService :=
  match j with
  | .obj fields =>
    match decodeFieldStringReq fields "service" with
    | .error e => .error e
    | .ok service =>
      match decodeFieldStringReq fields "type" with
      | .error e => .error e
      | .ok ty =>
        match decodeFieldStringList fields "urls" with
        | .error e => .error e
        | .ok urls =>
          match decodeFieldString fields "version" with
          | .error e => .error e
          | .ok version =>
            match decodeFieldOptConn fields "internal_connection" with
            | .error e => .error e
            | .ok ic =>
              match decodeFieldOptConn fields "external_connection" with
              | .error e => .error e
              | .ok ec =>
                match decodeFieldOptCreds fields "creds" with
                | .error e => .error e
                | .ok creds => .ok ⟨service, ty, urls, version, ic, ec, creds⟩
  | _ => .error "invalid type: expected an object"

/-- serde: decode each element of a sequence of services. -/
def decodeServiceItems : List Json → Except String (List LandoService)
  | [] => .ok []
  | j :: rest =>
    match decodeLandoService j with
    | .error e => .error e
    | .ok a =>
      match decodeServiceItems rest with
      | .error e => .error e
      | .ok as => .ok (a :: as)

/-- Decode the stdout of the introspection command as Vec of
LandoService. -/
def decodeServices (j : Json) : Except String (List LandoService) :=
  match j with
  | .arr xs => decodeServiceItems xs
  | _ => .error "invalid type: expected a sequence"

/-- The observable result of running a process to completion with
Command::output(): exit-status success flag, stdout (already put through
serde_json parsing, whose failure text is carried in the error case),
and stderr as lossy text.  An Except.error at the outer layer is an OS
spawn failure carrying its message. -/
structure ProcJsonOutput where
  success : Bool
  stdoutJson : Except String Json
  stderr : String

/-- serde_json::from_slice = text parse then typed decode, for apps. -/
def parseAndDecodeApps (p : Except String Json) : Except String (List LandoApp) :=
  match p with
  | .error e => .error e
  | .ok j => decodeApps j

/-- serde_json::from_slice for services. -/
def parseAndDecodeServices (p : Except String Json) :
    Except String (List LandoService) :=
  match p with
  | .error e => .error e
  | .ok j => decodeServices j

/-- src/lando.rs, fn list_apps: the messages its worker thread sends,
given the result of running the listing process. -/
def list_apps (r : Except String ProcJsonOutput) : List LandoCommandOutcome :=
  [match r with
   | .error e => .Error ("No se pudo ejecutar Lando: " ++ e)
   | .ok o =>
     if o.success then
       match parseAndDecodeApps o.stdoutJson with
       | .ok apps => .List apps
       | .error e => .Error ("Error al parsear JSON: " ++ e)
     else .Error ("Error de Lando: " ++ o.stderr)]

/-- src/lando.rs, fn get_project_info: the messages its worker thread
sends, given the result of running the introspection process in the
project directory. -/
def get_project_info (projectPath : List String)
    (r : Except String ProcJsonOutput) : List LandoCommandOutcome :=
  [match r with
   | .error e => .Error ("No se pudo ejecutar Lando info: " ++ e)
   | .ok o =>
     if o.success then
       match parseAndDecodeServices o.stdoutJson with
       | .ok services => .Info services
       | .error e => .Error ("Error al parsear JSON de lando info: " ++ e)
     else .Error ("Error de Lando info: " ++ o.stderr)]

/-- A filesystem tree as WalkDir sees it.  An err node stands for an
entry the walker reports as an error (filtered out by filter_map e.ok
in the scan loop); it has no accessible children. -/
inductive FsEntry where
  | file (name : String)
  | dir (name : String) (children : List FsEntry)
  | err

mutual

/-- WalkDir traversal bounded by max_depth: the path (component list) of
every yielded entry.  The entry given to WalkDir::new is at depth 0, its
direct children at depth 1, and entries beyond maxDepth are not
yielded. -/
def walkFrom (maxDepth depth : Nat) (path : List String) :
    FsEntry → List (List String)
  | .err => []
  | .file n => if depth ≤ maxDepth then [path ++ [n]] else []
  | .dir n cs =>
    if depth ≤ maxDepth then
      (path ++ [n]) :: walkFromList maxDepth (depth + 1) (path ++ [n]) cs
    else []

/-- Walk the children of a directory in order. -/
def walkFromList (maxDepth depth : Nat) (path : List String) :
    List FsEntry → List (List String)
  | [] => []
  | c :: cs =>
    walkFrom maxDepth depth path c ++ walkFromList maxDepth depth path cs

end

/-- src/lando.rs, fn scan_for_projects, the collection loop: walk with
max_depth 3, keep entries whose file_name is .lando.yml, record each
entry's parent directory.  The prefix is the path of the directory
containing the scan root. -/
def scanProjects (pre : List String) (root : FsEntry) : List (List String) :=
  ((walkFrom 3 0 pre root).filter
      (fun p => p.getLast? = some ".lando.yml")).map (fun p => p.dropLast)

/-- src/lando.rs, fn scan_for_projects: its worker thread sends the
collected list as a single Projects message. -/
def scan_for_projects (pre : List String) (root : FsEntry) :
    List LandoCommandOutcome :=
  [.Projects (scanProjects pre root)]

/-- One result of reader.read into the 1 KiB buffer: none is a read
error, some c is a successful read returning the bytes c (empty at end
of stream). -/
abbrev ReadResult := Option (List Nat)

/-- The reader-thread loop of run_lando_command / run_shell_command
(src/lando.rs): while read returns Ok(n), stop at n = 0, forward every
non-empty chunk; a read error ends the loop silently. -/
def pumpReads : List ReadResult → List (List Nat)
  | [] => []
  | none :: _ => []
  | some c :: rest => if c.length = 0 then [] else c :: pumpReads rest

/-- A spawned child process as the worker observes it: the read results
its stdout and stderr deliver, and the result of wait (an Except.error
is a wait failure carrying its message; Bool is status.success). -/
structure SpawnedProc where
  outReads : List ReadResult
  errReads : List ReadResult
  wait : Except String Bool

/-- A read schedule is what the OS can actually deliver for a stream
holding the given bytes: every read succeeds with a non-empty chunk of
at most 1024 bytes (the buffer size), and the chunks concatenate to the
whole stream. -/
def ValidSchedule (sched : List ReadResult) (stream : List Nat) : Prop :=
  ∃ cs : List (List Nat), sched = cs.map some ∧
    (∀ c ∈ cs, c ≠ [] ∧ c.length ≤ 1024) ∧ cs.flatten = stream

/-- t is an order-preserving merge of a and b. -/
inductive Interleaving : List α → List α → List α → Prop where
  | nil : Interleaving [] [] []
  | left {x : α} {t a b : List α} :
      Interleaving t a b → Interleaving (x :: t) (x :: a) b
  | right {x : α} {t a b : List α} :
      Interleaving t a b → Interleaving (x :: t) a (x :: b)

/-- src/lando.rs, fn run_lando_command: the messages sent on the channel
for one dispatch, in the operation's own send order.  t is the merged
order in which the two reader threads' chunks reached the channel; the
worker joins both readers before calling wait and sending the terminal
message. -/
def run_lando_command (command : String) (projectPath : List String)
    (spawn : Except String SpawnedProc) (t : List (List Nat)) :
    List LandoCommandOutcome :=
  match spawn with
  | .error e => [.Error ("No se pudo ejecutar Lando: " ++ e)]
  | .ok p =>
    t.map .LogOutput ++
      [match p.wait with
       | .error e =>
         .Error ("Error esperando el comando \x27" ++ command ++ "\x27: " ++ e)
       | .ok true =>
         .CommandSuccess ("Comando \x27" ++ command ++ "\x27 finalizado con éxito.")
       | .ok false =>
         .Error ("El comando \x27" ++ command ++ "\x27 terminó con un error.")]

/-- src/lando.rs, fn run_shell_command: same shape as
run_lando_command, invoked as lando ssh -s service -c command. -/
def run_shell_command (projectPath : List String) (service command : String)
    (spawn : Except String SpawnedProc) (t : List (List Nat)) :
    List LandoCommandOutcome :=
  match spawn with
  | .error e => [.Error ("No se pudo ejecutar Lando ssh: " ++ e)]
  | .ok p =>
    t.map .LogOutput ++
      [match p.wait with
       | .error e =>
         .Error ("Error esperando el comando ssh \x27" ++ command ++ "\x27: " ++ e)
       | .ok true =>
         .CommandSuccess ("Comando shell \x27" ++ command ++ "\x27 finalizado con éxito.")
       | .ok false =>
         .Error ("El comando shell \x27" ++ command ++ "\x27 terminó con un error.")]

/-- The observable result of Command::output() where stdout is used as
lossy text: status.success, stdout, stderr. -/
structure ProcTextOutput where
  success : Bool
  stdout : String
  stderr : String

/-- Argument list of the first (privileged) db-cli invocation. -/
def run_db_query_args_first (service query : String) : List String :=
  ["db-cli", "-s", service, "-u", "root", "-e", query]

/-- Argument list of the fallback (credential-less) db-cli invocation. -/
def run_db_query_args_fallback (service query : String) : List String :=
  ["db-cli", "-s", service, "-e", query]

/-- src/lando.rs, fn run_db_query: the argument lists of the process
invocations actually performed, in order, and the single outcome sent.
first and fallback describe what the OS would return for the privileged
and the credential-less invocation respectively; the fallback value is
only consulted when the code actually performs that invocation. -/
def run_db_query (projectPath : List String) (service query : String)
    (first fallback : Except String ProcTextOutput) :
    List (List String) × LandoCommandOutcome :=
  match first with
  | .error e =>
    ([run_db_query_args_first service query],
     .Error ("No se pudo ejecutar lando db-cli: " ++ e))
  | .ok o =>
    if o.success then
      ([run_db_query_args_first service query], .DbQueryResult o.stdout)
    else
      match fallback with
      | .error e =>
        ([run_db_query_args_first service query,
          run_db_query_args_fallback service query],
         .Error ("No se pudo ejecutar lando db-cli: " ++ e))
      | .ok o2 =>
        if o2.success then
          ([run_db_query_args_first service query,
            run_db_query_args_fallback service query],
           .DbQueryResult o2.stdout)
        else
          ([run_db_query_args_first service query,
            run_db_query_args_fallback service query],
           .Error ("Error ejecutando la consulta: " ++ o2.stderr))

/-- The channel trace of run_db_query: one message. -/
def run_db_query_trace (projectPath : List String) (service query : String)
    (first fallback : Except String ProcTextOutput) :
    List LandoCommandOutcome :=
  [(run_db_query projectPath service query first fallback).2]

/-- pat occurs at the head of hay. -/
def listPre (pat hay : List Char) : Bool :=
  match pat, hay with
  | [], _ => true
  | _ :: _, [] => false
  | a :: as, b :: bs => a = b && listPre as bs

/-- pat occurs somewhere in hay (str::contains on the char level). -/
def listSub (pat : List Char) : List Char → Bool
  | [] => listPre pat []
  | b :: bs => listPre pat (b :: bs) || listSub pat bs

/-- Rust str::contains for string literals. -/
def strContains (hay pat : String) : Bool :=
  listSub pat.toList hay.toList

/-- src/lando.rs, fn test_db_connection: the argument list of the probe
invocation and the single outcome sent. -/
def test_db_connection (projectPath : List String) (service : String)
    (r : Except String ProcTextOutput) :
    List String × LandoCommandOutcome :=
  (["ssh", "-s", service, "-c", "mysqladmin -u root ping"],
   match r with
   | .error e => .Error ("No se pudo ejecutar test de conexión: " ++ e)
   | .ok o =>
     if o.success then
       if strContains o.stdout "alive" then
         .DbQueryResult "✅ Conexión exitosa"
       else .Error ("Error de conexión (salida inesperada): " ++ o.stdout)
     else .Error ("Error probando conexión: " ++ o.stderr))

/-- The channel trace of test_db_connection: one message. -/
def test_db_connection_trace (projectPath : List String) (service : String)
    (r : Except String ProcTextOutput) : List LandoCommandOutcome :=
  [(test_db_connection projectPath service r).2]

/-- Rust Vec::dedup on the stored project paths: remove consecutive
repeated elements. -/
def vecDedup : List (List String) → List (List String)
  | [] => []
  | a :: rest =>
    match rest with
    | [] => [a]
    | b :: _ => if a = b then vecDedup rest else a :: vecDedup rest

/-- The comparison Vec::sort uses on PathBuf, on our path model:
lexicographic on components. -/
def pathLe (a b : List String) : Bool := decide (a ≤ b)

/-- src/app.rs, struct LandoGui: the UI-owned state the consumer loop
mutates (the terminal widget is modelled as the list of byte chunks
written to it). -/
structure AppState where
  apps : List LandoApp
  projects : List (List String)
  services : List LandoService
  db_query_input : String
  db_query_result : Option String
  error_message : Option String
  success_message : Option String
  is_loading : Bool
  terminal : List (List Nat)
deriving DecidableEq, Repr

/-- src/app.rs, LandoGui::update, the per-message consumer step: on any
received outcome the loading flag is cleared and both messages reset,
then the outcome-specific effect is applied. -/
def update (s : AppState) (o : LandoCommandOutcome) : AppState :=
  let s0 := { s with is_loading := false, error_message := none,
                     success_message := none }
  match o with
  | .List apps => { s0 with apps := apps }
  | .Projects newProjects =>
    { s0 with projects := vecDedup ((s0.projects ++ newProjects).mergeSort pathLe) }
  | .Info services => { s0 with services := services }
  | .DbQueryResult r => { s0 with db_query_result := some r }
  | .Error msg =>
    let s1 := { s0 with error_message := some msg }
    if s1.db_query_result.isSome || s1.db_query_input ≠ "" then
      { s1 with db_query_result := s1.error_message }
    else s1
  | .CommandSuccess msg => { s0 with success_message := some msg }
  | .FinishedLoading => s0
  | .LogOutput out => { s0 with terminal := s0.terminal ++ [out] }

/-- A terminal outcome: everything except the log stream and the
FinishedLoading no-op. -/
def isTerminal : LandoCommandOutcome → Bool
  | .FinishedLoading => false
  | .LogOutput _ => false
  | _ => true

/-- A well-formed operation trace: some log chunks followed by exactly
one terminal message. -/
def TraceOk (tr : List LandoCommandOutcome) : Prop :=
  ∃ (cs : List (List Nat)) (term : LandoCommandOutcome),
    tr = cs.map LandoCommandOutcome.LogOutput ++ [term] ∧
    isTerminal term = true

/-- The LogOutput payloads of a trace, in send order. -/
def logPayloads (tr : List LandoCommandOutcome) : List (List Nat) :=
  tr.filterMap (fun o =>
    match o with
    | .LogOutput c => some c
    | _ => none)

/-- A manifest file node. -/
def manifest : FsEntry := .file ".lando.yml"

/-- A directory tree carrying a manifest in the scan root (directory
depth 0) and one at each directory depth 1, 2, 3 and 4 below it. -/
def depthTree : FsEntry :=
  .dir "root" [manifest,
    .dir "d1" [manifest,
      .dir "d2" [manifest,
        .dir "d3" [manifest,
          .dir "d4" [manifest]]]]]

/-- C6 counterexample: on the tree with manifests at directory depths
0 through 4 below the scan root, the parent of the depth-3 manifest is
NOT in the scan result, contrary to the claim that depths 0 through 3
are all included: WalkDir yields entries only up to traversal depth 3,
and the depth-3 manifest file is itself a traversal-depth-4 entry. -/
theorem scan_depth_counterexample :
    ["root", "d1", "d2", "d3"] ∉ scanProjects [] depthTree := by decide

/-- C6 (amended): scanning a tree with manifests at directory depths 0
through 4 below the root collects exactly the parent directories of the
manifests at depths 0 through 2 and excludes the depth-3 and depth-4
manifests, delivered as one Projects message. -/
theorem scan_depth_bound :
    scan_for_projects [] depthTree =
      [.Projects [["root"], ["root", "d1"], ["root", "d1", "d2"]]] := by
  decide

/-- C10: every consumer step first clears the loading flag and both the
error and the success message, so after processing any outcome — the
LogOutput stream and the FinishedLoading no-op included — the stored
error message is none unless this outcome is an Error, the stored
success message is none unless it is a CommandSuccess, and the loading
flag is down; a message left by a previous operation is therefore erased
by the next outcome from any operation, and FinishedLoading does nothing
but that reset. -/
theorem consumer_step_clears_state :
    ∀ (s : AppState) (o : LandoCommandOutcome),
    ((update s o).is_loading = false ∧
     (update s o).error_message =
       (match o with
        | .Error m => some m
        | _ => none) ∧
     (update s o).success_message =
       (match o with
        | .CommandSuccess m => some m
        | _ => none)) ∧
    update s .FinishedLoading =
      { s with is_loading := false, error_message := none,
               success_message := none } := by
  intro s o
  refine ⟨?_, rfl⟩
  cases o <;> refine ⟨?_, ?_, ?_⟩ <;> simp only [update] <;>
    split <;> rfl

/-- C9: decoding an app object that omits name, location and urls still
succeeds with the empty-string / empty-list defaults as long as the
boolean running field is present, while an object that omits running
fails to decode, and a successful listing whose stdout is such an
otherwise well-formed array therefore produces an Error outcome. -/
theorem decode_defaults_and_required :
    (∀ (fields : List (String × Json)) (b : Bool),
      getField fields "name" = none →
      getField fields "location" = none →
      getField fields "urls" = none →
      getField fields "running" = some (.bool b) →
      decodeLandoApp (.obj fields) = .ok ⟨"", "", [], b⟩) ∧
    (∀ fields, getField fields "running" = none →
      ∃ e, decodeLandoApp (.obj fields) = .error e) ∧
    (∀ (fields : List (String × Json)) (o : ProcJsonOutput),
      getField fields "running" = none → o.success = true →
      o.stdoutJson = .ok (.arr [.obj fields]) →
      ∃ m, list_apps (.ok o) = [.Error m]) := by
  have hmiss : ∀ fields, getField fields "running" = none →
      ∃ e, decodeLandoApp (.obj fields) = .error e := by
    intro fields h
    simp only [decodeLandoApp]
    cases hn : decodeFieldString fields "name" with
    | error e => exact ⟨e, rfl⟩
    | ok name =>
      cases hl : decodeFieldString fields "location" with
      | error e => exact ⟨e, rfl⟩
      | ok location =>
        cases hu : decodeFieldStringList fields "urls" with
        | error e => exact ⟨e, rfl⟩
        | ok urls =>
          refine ⟨"missing field running", ?_⟩
          simp [decodeFieldBoolReq, h]
  refine ⟨?_, hmiss, ?_⟩
  · intro fields b h1 h2 h3 h4
    simp [decodeLandoApp, decodeFieldString, decodeFieldStringList,
      decodeFieldBoolReq, h1, h2, h3, h4, decodeBool]
  · intro fields o hrun hsucc hout
    obtain ⟨e, he⟩ := hmiss fields hrun
    refine ⟨"Error al parsear JSON: " ++ e, ?_⟩
    simp [list_apps, hsucc, hout, parseAndDecodeApps, decodeApps,
      decodeAppItems, he]

/-- C9 witness: an object carrying only running decodes to the
all-default app, an empty object does not decode, and a successful
listing returning such stdout yields an Error. -/
theorem decode_defaults_and_required_witness :
    decodeLandoApp (.obj [("running", .bool true)]) = .ok ⟨"", "", [], true⟩ ∧
    (∃ e, decodeLandoApp (.obj []) = .error e) ∧
    ∃ m, list_apps (.ok ⟨true, .ok (.arr [.obj []]), ""⟩) = [.Error m] :=
  ⟨decode_defaults_and_required.1 [("running", .bool true)] true rfl rfl rfl rfl,
   decode_defaults_and_required.2.1 [] rfl,
   decode_defaults_and_required.2.2 [] ⟨true, .ok (.arr [.obj []]), ""⟩
     rfl rfl rfl⟩

/-- C8: the listing operation sends exactly one message and never a
LogOutput; a successful exit whose stdout decodes yields the decoded
List, and a spawn failure, a non-zero exit or a decode failure each
yield an Error; on the concrete stdout from the spec scenario the
decoded app has exactly the given field values. -/
theorem list_apps_single_outcome :
    (∀ r, (list_apps r).length = 1) ∧
    (∀ r (c : List Nat), LandoCommandOutcome.LogOutput c ∉ list_apps r) ∧
    (∀ (o : ProcJsonOutput) (apps : List LandoApp), o.success = true →
      parseAndDecodeApps o.stdoutJson = .ok apps →
      list_apps (.ok o) = [.List apps]) ∧
    (∀ e, list_apps (.error e) =
      [.Error ("No se pudo ejecutar Lando: " ++ e)]) ∧
    (∀ o, o.success = false →
      list_apps (.ok o) = [.Error ("Error de Lando: " ++ o.stderr)]) ∧
    (∀ o e, o.success = true → parseAndDecodeApps o.stdoutJson = .error e →
      list_apps (.ok o) = [.Error ("Error al parsear JSON: " ++ e)]) ∧
    (decodeApps (.arr [.obj [("name", .str "site1"), ("location", .str "/a"),
        ("urls", .arr []), ("running", .bool true)]]) =
      .ok [⟨"site1", "/a", [], true⟩]) ∧
    (∀ o, o.success = true →
      o.stdoutJson = .ok (.arr [.obj [("name", .str "site1"),
        ("location", .str "/a"), ("urls", .arr []),
        ("running", .bool true)]]) →
      list_apps (.ok o) = [.List [⟨"site1", "/a", [], true⟩]]) := by
  have hconc : decodeApps (.arr [.obj [("name", .str "site1"),
      ("location", .str "/a"), ("urls", .arr []),
      ("running", .bool true)]]) = .ok [⟨"site1", "/a", [], true⟩] := rfl
  refine ⟨?_, ?_, ?_, ?_, ?_, ?_, hconc, ?_⟩
  · intro r
    cases r <;> simp [list_apps]
  · intro r c
    cases r with
    | error e => simp [list_apps]
    | ok o =>
      simp only [list_apps]
      cases ho : o.success with
      | false => simp
      | true =>
        cases hd : parseAndDecodeApps o.stdoutJson <;> simp
  · intro o apps hs hd
    simp [list_apps, hs, hd]
  · intro e
    rfl
  · intro o hs
    simp [list_apps, hs]
  · intro o e hs hd
    simp [list_apps, hs, hd]
  · intro o hs hout
    simp [list_apps, hs, hout, parseAndDecodeApps, hconc]

/-- C8 witness: the spec's concrete listing scenario — stdout holding
one fully populated app object under a successful exit — produces the
List outcome with exactly those field values. -/
theorem list_apps_single_outcome_witness :
    list_apps (.ok ⟨true, .ok (.arr [.obj [("name", .str "site1"),
        ("location", .str "/a"), ("urls", .arr []),
        ("running", .bool true)]]), ""⟩) =
      [.List [⟨"site1", "/a", [], true⟩]] :=
  list_apps_single_outcome.2.2.2.2.2.2.2
    ⟨true, .ok (.arr [.obj [("name", .str "site1"), ("location", .str "/a"),
      ("urls", .arr []), ("running", .bool true)]]), ""⟩ rfl rfl

/-- C5: the connection test invokes the liveness probe
mysqladmin -u root ping through the remote shell wrapper; it answers
with the canned DbQueryResult exactly when the probe spawned, exited
successfully and printed the literal substring alive, answers an Error
in every other case — in particular when the exit was successful but
the substring is absent — and one of the two always happens. -/
theorem test_connection_alive :
    ∀ (projectPath : List String) (service : String)
      (r : Except String ProcTextOutput),
    (test_db_connection projectPath service r).1 =
      ["ssh", "-s", service, "-c", "mysqladmin -u root ping"] ∧
    ((test_db_connection projectPath service r).2 =
        .DbQueryResult "✅ Conexión exitosa" ↔
      ∃ o, r = .ok o ∧ o.success = true ∧
        strContains o.stdout "alive" = true) ∧
    (∀ o, r = .ok o → o.success = true → strContains o.stdout "alive" = false →
      (test_db_connection projectPath service r).2 =
        .Error ("Error de conexión (salida inesperada): " ++ o.stdout)) ∧
    ((∃ m, (test_db_connection projectPath service r).2 = .Error m) ↔
      ¬ ∃ o, r = .ok o ∧ o.success = true ∧
        strContains o.stdout "alive" = true) := by
  intro projectPath service r
  refine ⟨rfl, ?_, ?_, ?_⟩
  · cases r with
    | error e => simp [test_db_connection]
    | ok o =>
      cases hs : o.success with
      | false => simp [test_db_connection, hs]
      | true =>
        cases ha : strContains o.stdout "alive" with
        | false => simp [test_db_connection, hs, ha]
        | true => simp [test_db_connection, hs, ha]
  · intro o hr hs ha
    subst hr
    simp [test_db_connection, hs, ha]
  · cases r with
    | error e => simp [test_db_connection]
    | ok o =>
      cases hs : o.success with
      | false => simp [test_db_connection, hs]
      | true =>
        cases ha : strContains o.stdout "alive" with
        | false => simp [test_db_connection, hs, ha]
        | true => simp [test_db_connection, hs, ha]

/-- C5 witness: a successful probe printing mysqld is alive yields the
canned success, and a successful probe without the substring yields the
unexpected-output Error. -/
theorem test_connection_alive_witness :
    (test_db_connection [] "database" (.ok ⟨true, "mysqld is alive", ""⟩)).2 =
      .DbQueryResult "✅ Conexión exitosa" ∧
    (test_db_connection [] "database" (.ok ⟨true, "denied", ""⟩)).2 =
      .Error ("Error de conexión (salida inesperada): " ++ "denied") :=
  ⟨(test_connection_alive [] "database"
      (.ok ⟨true, "mysqld is alive", ""⟩)).2.1.mpr
    ⟨⟨true, "mysqld is alive", ""⟩, rfl, rfl, by decide⟩,
   (test_connection_alive [] "database"
      (.ok ⟨true, "denied", ""⟩)).2.2.1
    ⟨true, "denied", ""⟩ rfl rfl (by decide)⟩

/-- C3: the data-query worker invokes db-cli first with the privileged
-u root arguments; whenever that first process runs and exits non-zero
the credential-less fallback is invoked exactly once, so precisely two
invocations happen; the outcome is DbQueryResult carrying the stdout of
whichever attempt exited successfully, and an Error happens exactly
when the first attempt exits non-zero and the fallback also fails. -/
theorem db_query_retry_policy :
    ∀ (projectPath : List String) (service query : String)
      (first fallback : Except String ProcTextOutput) (o : ProcTextOutput),
    first = .ok o →
    ((run_db_query projectPath service query first fallback).1.head? =
      some ["db-cli", "-s", service, "-u", "root", "-e", query]) ∧
    (o.success = false →
      (run_db_query projectPath service query first fallback).1 =
        [["db-cli", "-s", service, "-u", "root", "-e", query],
         ["db-cli", "-s", service, "-e", query]]) ∧
    (o.success = true →
      (run_db_query projectPath service query first fallback).1 =
        [["db-cli", "-s", service, "-u", "root", "-e", query]]) ∧
    (∀ s, (run_db_query projectPath service query first fallback).2 =
        .DbQueryResult s ↔
      ((o.success = true ∧ o.stdout = s) ∨
       (o.success = false ∧ ∃ o2, fallback = .ok o2 ∧ o2.success = true ∧
         o2.stdout = s))) ∧
    ((∃ m, (run_db_query projectPath service query first fallback).2 =
        .Error m) ↔
      (o.success = false ∧ ∀ o2, fallback = .ok o2 → o2.success = false)) := by
  intro projectPath service query first fallback o hfirst
  subst hfirst
  cases hs : o.success with
  | true =>
    refine ⟨?_, by simp [hs], ?_, ?_, ?_⟩
    · simp [run_db_query, hs, run_db_query_args_first]
    · intro _
      simp [run_db_query, hs, run_db_query_args_first]
    · intro s
      simp [run_db_query, hs]
    · simp [run_db_query, hs]
  | false =>
    cases fallback with
    | error e =>
      refine ⟨?_, ?_, by simp [hs], ?_, ?_⟩
      · simp [run_db_query, hs, run_db_query_args_first,
          run_db_query_args_fallback]
      · intro _
        simp [run_db_query, hs, run_db_query_args_first,
          run_db_query_args_fallback]
      · intro s
        simp [run_db_query, hs]
      · simp [run_db_query, hs]
    | ok o2 =>
      cases hs2 : o2.success with
      | true =>
        refine ⟨?_, ?_, by simp [hs], ?_, ?_⟩
        · simp [run_db_query, hs, hs2, run_db_query_args_first,
            run_db_query_args_fallback]
        · intro _
          simp [run_db_query, hs, hs2, run_db_query_args_first,
            run_db_query_args_fallback]
        · intro s
          simp [run_db_query, hs, hs2]
        · simp [run_db_query, hs, hs2]
      | false =>
        refine ⟨?_, ?_, by simp [hs], ?_, ?_⟩
        · simp [run_db_query, hs, hs2, run_db_query_args_first,
            run_db_query_args_fallback]
        · intro _
          simp [run_db_query, hs, hs2, run_db_query_args_first,
            run_db_query_args_fallback]
        · intro s
          simp [run_db_query, hs, hs2]
        · simp [run_db_query, hs, hs2]

/-- C3 witness: with a failing privileged attempt and a succeeding
fallback, exactly the two db-cli invocations happen in order and the
outcome carries the fallback's stdout. -/
theorem db_query_retry_policy_witness :
    (run_db_query [] "db" "select 1" (.ok ⟨false, "", "denied"⟩)
        (.ok ⟨true, "ok-row", ""⟩)).1 =
      [["db-cli", "-s", "db", "-u", "root", "-e", "select 1"],
       ["db-cli", "-s", "db", "-e", "select 1"]] ∧
    (run_db_query [] "db" "select 1" (.ok ⟨false, "", "denied"⟩)
        (.ok ⟨true, "ok-row", ""⟩)).2 = .DbQueryResult "ok-row" :=
  ⟨(db_query_retry_policy [] "db" "select 1" (.ok ⟨false, "", "denied"⟩)
      (.ok ⟨true, "ok-row", ""⟩) ⟨false, "", "denied"⟩ rfl).2.1 rfl,
   ((db_query_retry_policy [] "db" "select 1" (.ok ⟨false, "", "denied"⟩)
      (.ok ⟨true, "ok-row", ""⟩) ⟨false, "", "denied"⟩ rfl).2.2.2.1
     "ok-row").mpr
    (Or.inr ⟨rfl, ⟨true, "ok-row", ""⟩, rfl, rfl, rfl⟩)⟩

/-- A one-message trace with a terminal message is well formed. -/
theorem traceOk_single {x : LandoCommandOutcome} (h : isTerminal x = true) :
    TraceOk [x] :=
  ⟨[], x, rfl, h⟩

/-- C1: every dispatched operation — listing, introspection, lifecycle
command, remote shell command, data query, connection test and project
scan — sends, in its own send order, some LogOutput messages followed by
exactly one terminal message (a data outcome, CommandSuccess or Error),
whatever the external processes do; and a trace of that shape holds
exactly one terminal message. -/
theorem single_terminal_after_logs :
    (∀ r, TraceOk (list_apps r)) ∧
    (∀ (pp : List String) r, TraceOk (get_project_info pp r)) ∧
    (∀ (pre : List String) root, TraceOk (scan_for_projects pre root)) ∧
    (∀ (c : String) (pp : List String) sp t,
      TraceOk (run_lando_command c pp sp t)) ∧
    (∀ (pp : List String) (sv c : String) sp t,
      TraceOk (run_shell_command pp sv c sp t)) ∧
    (∀ (pp : List String) (sv q : String) f g,
      TraceOk (run_db_query_trace pp sv q f g)) ∧
    (∀ (pp : List String) (sv : String) r,
      TraceOk (test_db_connection_trace pp sv r)) ∧
    (∀ (cs : List (List Nat)) (term : LandoCommandOutcome),
      (cs.map LandoCommandOutcome.LogOutput ++ [term]).countP
          (fun o => isTerminal o) =
        if isTerminal term then 1 else 0) := by
  refine ⟨?_, ?_, ?_, ?_, ?_, ?_, ?_, ?_⟩
  · intro r
    apply traceOk_single
    cases r with
    | error e => rfl
    | ok o =>
      simp only [list_apps]
      cases o.success <;> simp only [if_true, if_false, Bool.false_eq_true]
      · rfl
      · cases parseAndDecodeApps o.stdoutJson <;> rfl
  · intro pp r
    apply traceOk_single
    cases r with
    | error e => rfl
    | ok o =>
      simp only [get_project_info]
      cases o.success <;> simp only [if_true, if_false, Bool.false_eq_true]
      · rfl
      · cases parseAndDecodeServices o.stdoutJson <;> rfl
  · intro pre root
    exact traceOk_single rfl
  · intro c pp sp t
    cases sp with
    | error e => exact traceOk_single rfl
    | ok p =>
      refine ⟨t, _, rfl, ?_⟩
      cases hw : p.wait with
      | error e => rfl
      | ok b => cases b <;> rfl
  · intro pp sv c sp t
    cases sp with
    | error e => exact traceOk_single rfl
    | ok p =>
      refine ⟨t, _, rfl, ?_⟩
      cases hw : p.wait with
      | error e => rfl
      | ok b => cases b <;> rfl
  · intro pp sv q f g
    apply traceOk_single
    rcases f with e | ⟨succ, out, err⟩
    · rfl
    · cases succ
      · rcases g with e2 | ⟨succ2, out2, err2⟩
        · rfl
        · cases succ2 <;> rfl
      · rfl
  · intro pp sv r
    apply traceOk_single
    rcases r with e | ⟨succ, out, err⟩
    · rfl
    · cases succ
      · rfl
      · cases hc : strContains out "alive" <;>
          simp [test_db_connection_trace, test_db_connection, hc, isTerminal]
  · intro cs term
    induction cs with
    | nil => simp [List.countP_cons]
    | cons c cs ih => simp [List.countP_cons, isTerminal, ih]

/-- C2: for a lifecycle command and for a remote shell command whose
process spawned and whose exit status was obtained, the terminal
message is a CommandSuccess exactly when the exit status is success and
an Error exactly when it is not. -/
theorem terminal_matches_exit_status :
    ∀ (command service : String) (pp1 pp2 : List String)
      (p q : SpawnedProc) (t u : List (List Nat)) (b c : Bool),
    p.wait = .ok b → q.wait = .ok c →
    (((∃ m, (run_lando_command command pp1 (.ok p) t).getLast? =
        some (.CommandSuccess m)) ↔ b = true) ∧
     ((∃ m, (run_lando_command command pp1 (.ok p) t).getLast? =
        some (.Error m)) ↔ b = false)) ∧
    (((∃ m, (run_shell_command pp2 service command (.ok q) u).getLast? =
        some (.CommandSuccess m)) ↔ c = true) ∧
     ((∃ m, (run_shell_command pp2 service command (.ok q) u).getLast? =
        some (.Error m)) ↔ c = false)) := by
  intro command service pp1 pp2 p q t u b c hp hq
  constructor
  · cases b <;>
      simp [run_lando_command, hp, List.getLast?_concat]
  · cases c <;>
      simp [run_shell_command, hq, List.getLast?_concat]

/-- C2 witness: a zero exit yields the CommandSuccess terminal and a
non-zero exit yields the Error terminal, for both command shapes. -/
theorem terminal_matches_exit_status_witness :
    (∃ m, (run_lando_command "start" ["p"]
        (.ok ⟨[], [], .ok true⟩) []).getLast? =
      some (.CommandSuccess m)) ∧
    (∃ m, (run_shell_command ["p"] "web" "start"
        (.ok ⟨[], [], .ok false⟩) []).getLast? =
      some (.Error m)) :=
  ⟨((terminal_matches_exit_status "start" "web" ["p"] ["p"]
      ⟨[], [], .ok true⟩ ⟨[], [], .ok false⟩ [] [] true false
      rfl rfl).1.1).mpr rfl,
   ((terminal_matches_exit_status "start" "web" ["p"] ["p"]
      ⟨[], [], .ok true⟩ ⟨[], [], .ok false⟩ [] [] true false
      rfl rfl).2.2).mpr rfl⟩

/-- The pump forwards a schedule of non-empty successful reads whole. -/
theorem pumpReads_map_some :
    ∀ (cs : List (List Nat)), (∀ c ∈ cs, c ≠ []) →
    pumpReads (cs.map some) = cs := by
  intro cs
  induction cs with
  | nil => intro _; rfl
  | cons c cs ih =>
    intro h
    have hc : c ≠ [] := h c (by simp)
    have hrest : ∀ x ∈ cs, x ≠ [] := fun x hx => h x (by simp [hx])
    simp [pumpReads, List.length_eq_zero, hc, ih hrest]

/-- On a valid schedule the pump's chunks concatenate to the whole
stream. -/
theorem flatten_pumpReads {sched : List ReadResult} {stream : List Nat}
    (h : ValidSchedule sched stream) : (pumpReads sched).flatten = stream := by
  obtain ⟨cs, rfl, hne, hj⟩ := h
  rw [pumpReads_map_some cs (fun c hc => (hne c hc).1)]
  exact hj

/-- The payloads of a log prefix followed by a terminal message are the
log chunks themselves. -/
theorem logPayloads_append_terminal (t : List (List Nat))
    (x : LandoCommandOutcome) (h : isTerminal x = true) :
    logPayloads (t.map LandoCommandOutcome.LogOutput ++ [x]) = t := by
  induction t with
  | nil => cases x <;> simp [logPayloads, isTerminal] at h ⊢
  | cons c t ih =>
    simp only [logPayloads, List.map_cons, List.cons_append,
      List.filterMap_cons] at ih ⊢
    simpa using ih

/-- C4: for both streaming commands, given any read schedules actually
delivering the process's stdout and stderr byte streams and any order t
in which the two reader threads' sends reached the channel, the
LogOutput payloads of the trace in delivery order are exactly t, and t
is an order-preserving merge of a stdout chunk sequence and a stderr
chunk sequence that concatenate to the full stdout and stderr byte
streams — so each stream's bytes appear in order and no byte is lost. -/
theorem log_chunks_merge_streams :
    ∀ (command service : String) (pp1 pp2 : List String)
      (p q : SpawnedProc) (t u : List (List Nat))
      (outS errS outS2 errS2 : List Nat),
    ValidSchedule p.outReads outS → ValidSchedule p.errReads errS →
    Interleaving t (pumpReads p.outReads) (pumpReads p.errReads) →
    ValidSchedule q.outReads outS2 → ValidSchedule q.errReads errS2 →
    Interleaving u (pumpReads q.outReads) (pumpReads q.errReads) →
    (logPayloads (run_lando_command command pp1 (.ok p) t) = t ∧
     ∃ a b, Interleaving t a b ∧ a.flatten = outS ∧ b.flatten = errS) ∧
    (logPayloads (run_shell_command pp2 service command (.ok q) u) = u ∧
     ∃ a b, Interleaving u a b ∧ a.flatten = outS2 ∧ b.flatten = errS2) := by
  intro command service pp1 pp2 p q t u outS errS outS2 errS2
  intro ho1 he1 hi1 ho2 he2 hi2
  refine ⟨⟨?_, pumpReads p.outReads, pumpReads p.errReads, hi1,
            flatten_pumpReads ho1, flatten_pumpReads he1⟩,
          ⟨?_, pumpReads q.outReads, pumpReads q.errReads, hi2,
            flatten_pumpReads ho2, flatten_pumpReads he2⟩⟩
  · simp only [run_lando_command]
    apply logPayloads_append_terminal
    cases hw : p.wait with
    | error e => rfl
    | ok b => cases b <;> rfl
  · simp only [run_shell_command]
    apply logPayloads_append_terminal
    cases hw : q.wait with
    | error e => rfl
    | ok b => cases b <;> rfl

/-- C4 witness: a process writing one stdout chunk and one stderr chunk
whose sends arrive stdout-first has trace payloads equal to that merge,
and the merge splits back into the two full streams. -/
theorem log_chunks_merge_streams_witness :
    logPayloads (run_lando_command "start" ["p"]
        (.ok ⟨[some [104, 105]], [some [33]], .ok true⟩)
        [[104, 105], [33]]) = [[104, 105], [33]] ∧
    ∃ a b, Interleaving [[104, 105], [33]] a b ∧
      a.flatten = [104, 105] ∧ b.flatten = [33] :=
  (log_chunks_merge_streams "start" "web" ["p"] ["p"]
      ⟨[some [104, 105]], [some [33]], .ok true⟩
      ⟨[], [], .ok true⟩ [[104, 105], [33]] [] [104, 105] [33] [] []
      ⟨[[104, 105]], rfl, by decide, rfl⟩
      ⟨[[33]], rfl, by decide, rfl⟩
      (.left (.right .nil))
      ⟨[], rfl, by decide, rfl⟩
      ⟨[], rfl, by decide, rfl⟩
      .nil).1

/-- Vec::dedup only removes elements. -/
theorem vecDedup_sublist :
    ∀ l : List (List String), List.Sublist (vecDedup l) l := by
  intro l
  induction l with
  | nil => exact .refl []
  | cons a rest ih =>
    cases rest with
    | nil => exact .refl [a]
    | cons b rs =>
      show List.Sublist
        (if a = b then vecDedup (b :: rs) else a :: vecDedup (b :: rs)) _
      split
      · exact ih.cons a
      · exact ih.cons₂ a

/-- Vec::dedup keeps every distinct value. -/
theorem mem_vecDedup (x : List String) :
    ∀ l : List (List String), x ∈ vecDedup l ↔ x ∈ l := by
  intro l
  induction l with
  | nil => exact Iff.rfl
  | cons a rest ih =>
    cases rest with
    | nil => exact Iff.rfl
    | cons b rs =>
      show x ∈ (if a = b then vecDedup (b :: rs) else a :: vecDedup (b :: rs))
        ↔ _
      split
      · rename_i hab
        rw [ih]
        subst hab
        simp only [List.mem_cons]
        tauto
      · simp [List.mem_cons, ih]

/-- On a sorted list, consecutive dedup leaves no duplicates at all. -/
theorem nodup_vecDedup :
    ∀ l : List (List String), l.Sorted (· ≤ ·) → (vecDedup l).Nodup := by
  intro l
  induction l with
  | nil => intro _; exact List.nodup_nil
  | cons a rest ih =>
    intro hs
    cases rest with
    | nil => exact List.nodup_singleton a
    | cons b rs =>
      have htail : (b :: rs).Sorted (· ≤ ·) := hs.of_cons
      have hhead : ∀ x ∈ b :: rs, a ≤ x := (List.sorted_cons.mp hs).1
      show List.Nodup
        (if a = b then vecDedup (b :: rs) else a :: vecDedup (b :: rs))
      split
      · exact ih htail
      · rename_i hab
        refine List.nodup_cons.mpr ⟨?_, ih htail⟩
        intro hmem
        have hmem2 : a ∈ b :: rs := (mem_vecDedup a (b :: rs)).mp hmem
        rcases List.mem_cons.mp hmem2 with h | h
        · exact hab h
        · have hba : b ≤ a := (List.sorted_cons.mp htail).1 a h
          have hab2 : a ≤ b := hhead b (by simp)
          exact hab (le_antisymm hab2 hba)

/-- The path comparison is transitive. -/
theorem pathLe_trans : ∀ a b c : List String,
    pathLe a b = true → pathLe b c = true → pathLe a c = true := by
  intro a b c hab hbc
  simp only [pathLe, decide_eq_true_eq] at hab hbc ⊢
  exact le_trans hab hbc

/-- The path comparison is total. -/
theorem pathLe_total : ∀ a b : List String,
    (pathLe a b || pathLe b a) = true := by
  intro a b
  simp only [pathLe]
  rcases le_total a b with h | h <;> simp [h]

/-- mergeSort with the path comparison sorts with respect to the path
order. -/
theorem sorted_mergeSort_pathLe (l : List (List String)) :
    (l.mergeSort pathLe).Sorted (· ≤ ·) := by
  have h := List.sorted_mergeSort pathLe_trans pathLe_total l
  exact h.imp (fun hab => by
    simpa [pathLe, decide_eq_true_eq] using hab)

/-- A member of a duplicate-free path list is counted exactly once. -/
theorem count_one_of_nodup_mem (l : List (List String)) (P : List String)
    (d : l.Nodup) (h : P ∈ l) : l.count P = 1 := by
  induction l with
  | nil => cases h
  | cons a rest ih =>
    have hd := List.nodup_cons.mp d
    rcases List.mem_cons.mp h with rfl | h2
    · have h0 : rest.count P = 0 := List.count_eq_zero.mpr hd.1
      simp [List.count_cons, h0]
    · have hne : ¬ a = P := by
        rintro rfl
        exact hd.1 h2
      simp [List.count_cons, ih hd.2 h2, hne]

/-- C7: after the consumer merges two scan results that both contain a
path P, the stored project list is sorted and holds P exactly once —
identical discoveries from overlapping roots are collapsed. -/
theorem projects_dedup_sorted :
    ∀ (s : AppState) (r1 r2 : List (List String)) (P : List String),
    P ∈ r1 → P ∈ r2 →
    (update (update s (.Projects r1)) (.Projects r2)).projects.count P = 1 ∧
    (update (update s (.Projects r1)) (.Projects r2)).projects.Sorted
      (· ≤ ·) := by
  intro s r1 r2 P hP1 hP2
  simp only [update]
  set l := ((vecDedup ((s.projects ++ r1).mergeSort pathLe) ++ r2).mergeSort
    pathLe) with hl
  have hsort : l.Sorted (· ≤ ·) := sorted_mergeSort_pathLe _
  have hmem : P ∈ l := by
    rw [hl]
    exact List.mem_mergeSort.mpr (List.mem_append_right _ hP2)
  refine ⟨?_, hsort.sublist (vecDedup_sublist l)⟩
  exact count_one_of_nodup_mem _ _ (nodup_vecDedup l hsort)
    ((mem_vecDedup P l).mpr hmem)

/-- C7 witness: two overlapping scans both discovering the path p leave
one sorted copy of p in the project list. -/
theorem projects_dedup_sorted_witness :
    (["p"] : List String) ∈ [["a"], ["p"]] ∧
    (["p"] : List String) ∈ [["p"], ["b"]] ∧
    ((update (update ⟨[], [], [], "", none, none, none, false, []⟩
        (.Projects [["a"], ["p"]])) (.Projects [["p"], ["b"]])).projects.count
      ["p"] = 1 ∧
     (update (update ⟨[], [], [], "", none, none, none, false, []⟩
        (.Projects [["a"], ["p"]])) (.Projects [["p"], ["b"]])).projects.Sorted
      (· ≤ ·)) :=
  ⟨by decide, by decide,
   projects_dedup_sorted ⟨[], [], [], "", none, none, none, false, []⟩
     [["a"], ["p"]] [["p"], ["b"]] ["p"] (by decide) (by decide)⟩

end LandoGui
